import Mathlib

/-!
Shallow embedding of the attendance-tracking CLI (src/pro.py, SQLite-backed).

Tables become lists of records kept in rowid (insertion) order; the store is
the five tables together.  Operations are translated statement by statement
from the Python source, including SQLite-specific semantics where they
matter:
  * a UNIQUE constraint never regards two NULLs as equal, so an
    INSERT OR IGNORE whose start_time is NULL always inserts
    (sessions table, ensure_course_session);
  * SELECT ... fetchone() returns the first matching row in rowid order;
  * the python sqlite3 driver only makes writes durable at an explicit
    connection.commit(); an operation that raises between commits loses
    the uncommitted statements but keeps everything committed earlier.
    Mutating operations therefore return the durable store together with
    the outcome.
-/

namespace Attendance

/-- Row of the students table: id surrogate key, roll unique, email nullable. -/
structure Student where
  id : Nat
  roll : String
  name : String
  email : Option String
deriving Repr, DecidableEq

/-- Row of the courses table: id surrogate key, code unique, teacher nullable. -/
structure Course where
  id : Nat
  code : String
  title : String
  teacher : Option String
deriving Repr, DecidableEq

/-- Row of the enrollments table, primary key (student_id, course_id). -/
structure Enrollment where
  studentId : Nat
  courseId : Nat
deriving Repr, DecidableEq

/-- Row of the sessions table; start_time, end_time and topic are nullable. -/
structure Session where
  id : Nat
  courseId : Nat
  sessionDate : String
  startTime : Option String
  endTime : Option String
  topic : Option String
deriving Repr, DecidableEq

/-- Row of the attendance table, primary key (session_id, student_id). -/
structure AttendanceRow where
  sessionId : Nat
  studentId : Nat
  status : String
  markedAt : String
deriving Repr, DecidableEq

/-- The whole SQLite store: the five tables, each in rowid order. -/
structure Store where
  students : List Student
  courses : List Course
  enrollments : List Enrollment
  sessions : List Session
  attendance : List AttendanceRow
deriving Repr, DecidableEq

def emptyStore : Store := ⟨[], [], [], [], []⟩

/-- Errors the program can raise: sqlite3.IntegrityError is caught in
dunder-main and mapped to exit code 2; SystemExit(msg) exits with code 1. -/
inductive Err where
  | integrityError (msg : String)
  | systemExit (msg : String)
deriving Repr, DecidableEq

/-- Exit code produced by the dunder-main exception handler of pro.py. -/
def exitCodeOf : Err → Nat
  | .integrityError _ => 2
  | .systemExit _ => 1

/-- Decidable equality of outcomes, so concrete runs can be settled by
decide. -/
instance {ε α : Type} [DecidableEq ε] [DecidableEq α] :
    DecidableEq (Except ε α) := fun a b =>
  match a, b with
  | .ok x, .ok y =>
    if h : x = y then isTrue (by rw [h])
    else isFalse (by intro hc; cases hc; exact h rfl)
  | .error x, .error y =>
    if h : x = y then isTrue (by rw [h])
    else isFalse (by intro hc; cases hc; exact h rfl)
  | .ok _, .error _ => isFalse (by intro hc; cases hc)
  | .error _, .ok _ => isFalse (by intro hc; cases hc)

/-- SELECT id FROM courses WHERE code=? followed by fetchone(). -/
def findCourse (st : Store) (code : String) : Option Course :=
  st.courses.find? (fun c => c.code = code)

/-- SELECT id FROM students WHERE roll=? followed by fetchone(). -/
def findStudentByRoll (st : Store) (roll : String) : Option Student :=
  st.students.find? (fun s => s.roll = roll)

/-- AUTOINCREMENT: next id is one more than the largest id present. -/
def nextStudentId (st : Store) : Nat :=
  (st.students.map Student.id).foldr max 0 + 1

def nextCourseId (st : Store) : Nat :=
  (st.courses.map Course.id).foldr max 0 + 1

def nextSessionId (st : Store) : Nat :=
  (st.sessions.map Session.id).foldr max 0 + 1

/-- add_student: INSERT INTO students(roll, name, email); the UNIQUE
constraint on roll makes a duplicate roll raise sqlite3.IntegrityError
before anything is written.  Returns the durable store and the outcome. -/
def add_student (st : Store) (roll name : String) (email : Option String) :
    Store × Except Err Unit :=
  if st.students.any (fun s => s.roll = roll) then
    (st, .error (.integrityError "UNIQUE constraint failed: students.roll"))
  else
    ({ st with students := st.students ++ [⟨nextStudentId st, roll, name, email⟩] },
     .ok ())

/-- add_course: INSERT INTO courses(code, title, teacher), UNIQUE code. -/
def add_course (st : Store) (code title : String) (teacher : Option String) :
    Store × Except Err Unit :=
  if st.courses.any (fun c => c.code = code) then
    (st, .error (.integrityError "UNIQUE constraint failed: courses.code"))
  else
    ({ st with courses := st.courses ++ [⟨nextCourseId st, code, title, teacher⟩] },
     .ok ())

/-- enroll_student: resolve roll and code (SystemExit on either miss), then
INSERT OR IGNORE INTO enrollments. -/
def enroll_student (st : Store) (roll courseCode : String) :
    Store × Except Err Unit :=
  match findStudentByRoll st roll with
  | none => (st, .error (.systemExit ("Student not found: " ++ roll)))
  | some stu =>
    match findCourse st courseCode with
    | none => (st, .error (.systemExit ("Course not found: " ++ courseCode)))
    | some c =>
      if st.enrollments.any (fun e => e.studentId = stu.id ∧ e.courseId = c.id) then
        (st, .ok ())
      else
        ({ st with enrollments := st.enrollments ++ [⟨stu.id, c.id⟩] }, .ok ())

/-- The UNIQUE(course_id, session_date, start_time) constraint of the sessions
table as SQLite enforces it: a candidate row conflicts with an existing row
only when course and date agree and BOTH start times are non-NULL and equal
(SQLite treats every NULL as distinct from every other NULL in a unique
index). -/
def sessionConflicts (s : Session) (cid : Nat) (d : String)
    (t : Option String) : Bool :=
  s.courseId = cid && s.sessionDate = d &&
    match s.startTime, t with
    | some a, some b => a = b
    | _, _ => false

/-- The WHERE clause start_time IS ? of the reuse SELECT: IS matches NULL
with NULL and otherwise behaves as equality. -/
def sessionIsMatch (s : Session) (cid : Nat) (d : String)
    (t : Option String) : Bool :=
  s.courseId = cid && s.sessionDate = d && s.startTime == t

/-- ensure_course_session: resolve the course (SystemExit on miss), then
INSERT OR IGNORE a session row, commit, and SELECT the session id back with
start_time IS ?.  Returns the committed store and the resolved session id.
The fetchone of the final SELECT always finds a row (either the conflicting
row or the row just inserted); the getD 0 default is unreachable. -/
def ensure_course_session (st : Store) (courseCode sessionDate : String)
    (startTime endTime topic : Option String) :
    Except Err (Store × Nat) :=
  match findCourse st courseCode with
  | none => .error (.systemExit ("Course not found: " ++ courseCode))
  | some c =>
    let st1 :=
      if st.sessions.any (fun s => sessionConflicts s c.id sessionDate startTime) then
        st
      else
        { st with sessions := st.sessions ++
            [⟨nextSessionId st, c.id, sessionDate, startTime, endTime, topic⟩] }
    let sid :=
      ((st1.sessions.find? (fun s => sessionIsMatch s c.id sessionDate startTime)).map
        Session.id).getD 0
    .ok (st1, sid)

/-- The primary-key match of the attendance table:
session_id=? AND student_id=?. -/
def attMatches (sid stid : Nat) (a : AttendanceRow) : Bool :=
  a.sessionId = sid ∧ a.studentId = stid

/-- The per-row upsert of mark_attendance on the attendance table:
INSERT INTO attendance ... ON CONFLICT(session_id, student_id) DO UPDATE SET
status=excluded.status, marked_at=excluded.marked_at. -/
def upsertAttendanceList (l : List AttendanceRow) (sid stid : Nat)
    (status nowIso : String) : List AttendanceRow :=
  if l.any (attMatches sid stid) then
    l.map (fun a =>
      if attMatches sid stid a then
        { a with status := status, markedAt := nowIso }
      else a)
  else
    l ++ [⟨sid, stid, status, nowIso⟩]

/-- The same upsert as a store operation. -/
def upsertAttendance (st : Store) (sid stid : Nat) (status nowIso : String) :
    Store :=
  { st with attendance := upsertAttendanceList st.attendance sid stid status nowIso }

/-- The per-pair loop of mark_attendance: validate status, resolve the roll
(the batch roll lookup of the source is equivalent to a per-pair lookup
because the loop never changes the students table), check enrollment, and
upsert.  Any failure raises before the final commit. -/
def processMarks (st : Store) (sid cid : Nat) (courseCode : String)
    (marks : List (String × String)) (nowIso : String) : Except Err Store :=
  match marks with
  | [] => .ok st
  | (roll, status) :: rest =>
    if status = "P" ∨ status = "A" ∨ status = "L" then
      match findStudentByRoll st roll with
      | none => .error (.systemExit ("Unknown student roll: " ++ roll))
      | some stu =>
        if st.enrollments.any (fun e => e.studentId = stu.id ∧ e.courseId = cid) then
          processMarks (upsertAttendance st sid stu.id status nowIso) sid cid
            courseCode rest nowIso
        else
          .error (.systemExit ("Student " ++ roll ++ " not enrolled in " ++ courseCode))
    else
      .error (.systemExit "Status must be one of P, A, L")

/-- mark_attendance: ensure the session (which COMMITS the session row), take
one wall-clock sample nowIso, loop over the pairs, and only commit the
attendance writes after the whole loop succeeded.  A failure inside the loop
therefore leaves the durable store exactly as ensure_course_session left it:
the session row persists, the attendance upserts made so far are rolled
back. -/
def mark_attendance (st : Store) (courseCode sessionDate : String)
    (marks : List (String × String)) (startTime endTime topic : Option String)
    (nowIso : String) : Store × Except Err Unit :=
  match ensure_course_session st courseCode sessionDate startTime endTime topic with
  | .error e => (st, .error e)
  | .ok (st1, sid) =>
    match findCourse st1 courseCode with
    | none => (st1, .error (.systemExit ("Course not found: " ++ courseCode)))
    | some c =>
      match processMarks st1 sid c.id courseCode marks nowIso with
      | .error e => (st1, .error e)
      | .ok st2 => (st2, .ok ())

/-! ### Reporting

The source computes each percentage in IEEE-754 binary64 arithmetic:
attended and total_sessions are exact integers, attended / total_sessions
is one float division (the binary64 value nearest the exact quotient, ties
to even), * 100.0 is one float multiplication (100.0 is exactly
representable, so the result is the binary64 value nearest 100 times the
quotient's double), and the reported two-decimal number — round(x, 2) in
fetch_course_stats, the .2f format in report_student and report_course —
is the correctly rounded two-decimal value of the double's EXACT binary
value, ties to even (CPython uses David Gay's correctly-rounded
conversions for both).  The model mirrors that pipeline exactly: each
float operation is a rounding of an exact rational to binary64, and the
reported number is the rational k/100 that the program prints.  The only
idealization: a quotient at or above 2^1024 would raise OverflowError in
Python, while the model keeps rounding with an unbounded exponent; no
store below astronomic size reaches that range. -/

/-- Round half to even, the rounding used by the round builtin of Python
and by its float formatting. -/
def pyRoundHalfEven (q : ℚ) : ℤ :=
  let f := Rat.floor q
  let r := q - (f : ℚ)
  if r < 1/2 then f
  else if 1/2 < r then f + 1
  else if f % 2 = 0 then f else f + 1

/-- The two-decimal number the program reports for the double whose exact
value is q: round(q, 2) with halves to even. -/
def round2 (q : ℚ) : ℚ := (pyRoundHalfEven (q * 100) : ℚ) / 100

/-- Number of binary digits of n, by fuelled halving (fuel n suffices
since the bit length of n is at most n). -/
def nbitsAux : Nat → Nat → Nat
  | 0, _ => 0
  | fuel + 1, n => if n = 0 then 0 else nbitsAux fuel (n / 2) + 1

def nbits (n : Nat) : Nat := nbitsAux n n

/-- Round the ratio N / D (with D > 0) to the nearest natural number,
ties to even. -/
def roundRatioHalfEven (N D : Nat) : Nat :=
  let qu := N / D
  let r := N % D
  if 2 * r < D then qu
  else if D < 2 * r then qu + 1
  else if qu % 2 = 0 then qu else qu + 1

/-- The IEEE-754 binary64 value nearest to n / d (d > 0), ties to even:
take the exponent e with 2 ^ e ≤ n / d < 2 ^ (e + 1), round the quotient
to a multiple of the unit in the last place 2 ^ (e - 52) — or of the
subnormal quantum 2 ^ (-1074) when e - 52 falls below it — with ties to
even.  Rounding that carries into the next binade yields the same value
the IEEE result has, so no renormalization is needed at the value level. -/
def flOfRatio (n d : Nat) : ℚ :=
  if n = 0 then 0
  else
    let k := nbits n - 1
    let j := nbits d - 1
    let e : ℤ := if d * 2 ^ k ≤ n * 2 ^ j then (k : ℤ) - j else (k : ℤ) - j - 1
    let p : ℤ := if e - 52 < -1074 then -1074 else e - 52
    if p ≤ 0 then
      Rat.divInt (roundRatioHalfEven (n * 2 ^ (-p).toNat) d : ℕ)
        (2 ^ (-p).toNat : ℕ)
    else
      Rat.divInt ((roundRatioHalfEven n (d * 2 ^ p.toNat) * 2 ^ p.toNat : ℕ) : ℤ) 1

/-- Python's float true division a / b of the nonnegative integers a and
b > 0 (both exactly representable here): the binary64 value nearest a / b. -/
def floatDivNat (a b : Nat) : ℚ := flOfRatio a b

/-- Python's float multiplication q * 100.0 for a nonnegative binary64
value q (given by its exact rational value): 100.0 is exactly
representable, so the result is the binary64 value nearest 100 * q. -/
def floatMul100 (q : ℚ) : ℚ := flOfRatio (q.num.toNat * 100) q.den

/-- ORDER BY s.roll of fetch_course_stats (also the export order of the
students table). -/
def studentLe (a b : Student) : Prop := a.roll ≤ b.roll

instance : DecidableRel studentLe := fun a b =>
  inferInstanceAs (Decidable (a.roll ≤ b.roll))

/-- ORDER BY c.code of report_student (also the export order of courses). -/
def courseLe (a b : Course) : Prop := a.code ≤ b.code

instance : DecidableRel courseLe := fun a b =>
  inferInstanceAs (Decidable (a.code ≤ b.code))

/-- The aggregate of one GROUP BY s.id group of fetch_course_stats.  The
source joins: LEFT JOIN attendance a ON a.student_id = s.id — keyed on the
student only, with no course restriction — and then LEFT JOIN sessions se ON
se.id = a.session_id AND se.course_id = ?, whose columns the SELECT never
reads, so the course filter it carries restricts nothing.  The counted rows
are therefore ALL attendance rows of the student, from sessions of any
course (session ids are a primary key, so the second left join does not
multiply rows either; when the student has no attendance rows the single
NULL-extended row contributes 0 to each SUM). -/
def courseStatsCounts (st : Store) (stu : Student) : Nat × Nat × Nat :=
  let atts := st.attendance.filter (fun a => a.studentId = stu.id)
  ((atts.filter (fun a => a.status = "P")).length,
   (atts.filter (fun a => a.status = "A")).length,
   (atts.filter (fun a => a.status = "L")).length)

/-- fetch_course_stats: resolve the course (SystemExit on miss), count the
sessions of the course, then one output row per enrolled student (the
enrollments primary key gives at most one join row per student), ordered by
roll.  attended = present + late is exact integer addition; the percentage
is the float pipeline attended / total_sessions * 100.0 (two binary64
roundings) when total_sessions > 0 and the float 0.0 otherwise, and the
reported value is round(percentage, 2) of the double's exact value.
Returns (total_sessions, len(rows), rows). -/
def fetch_course_stats (st : Store) (courseCode : String) :
    Except Err (Nat × Nat × List (String × String × Nat × Nat × Nat × ℚ)) :=
  match findCourse st courseCode with
  | none => .error (.systemExit ("Course not found: " ++ courseCode))
  | some c =>
    let totalSessions := (st.sessions.filter (fun s => s.courseId = c.id)).length
    let enrolled := st.students.filter (fun s =>
      st.enrollments.any (fun e => e.studentId = s.id ∧ e.courseId = c.id))
    let ordered := List.insertionSort studentLe enrolled
    let rows := ordered.map (fun stu =>
      let counts := courseStatsCounts st stu
      let percentage : ℚ :=
        if 0 < totalSessions then
          floatMul100 (floatDivNat (counts.1 + counts.2.2) totalSessions)
        else 0
      (stu.roll, stu.name, counts.1, counts.2.1, counts.2.2, round2 percentage))
    .ok (totalSessions, rows.length, rows)

/-- One line of report_student for one enrolled course.  Here, unlike in
fetch_course_stats, the joins restrict attendance to the sessions of the
course: LEFT JOIN sessions se ON se.course_id = c.id, LEFT JOIN attendance a
ON a.session_id = se.id AND a.student_id = ?.  Because session ids are a
primary key, the counts are the attendance rows of the student lying in
sessions of the course.  The percentage is the same float pipeline as in
fetch_course_stats; the source prints it with the .2f format, which
performs the identical two-decimal half-even rounding of the double's
exact value that round2 models. -/
def studentReportLine (st : Store) (stuId : Nat) (c : Course) :
    String × Nat × Nat × Nat × ℚ :=
  let sess := st.sessions.filter (fun s => s.courseId = c.id)
  let atts := st.attendance.filter (fun a =>
    a.studentId = stuId ∧ sess.any (fun s => s.id = a.sessionId))
  let p := (atts.filter (fun a => a.status = "P")).length
  let ab := (atts.filter (fun a => a.status = "A")).length
  let l := (atts.filter (fun a => a.status = "L")).length
  let totalSessions := sess.length
  let percentage : ℚ :=
    if 0 < totalSessions then floatMul100 (floatDivNat (p + l) totalSessions)
    else 0
  (c.code, p, ab, l, round2 percentage)

/-- report_student: resolve the roll (SystemExit on miss), then one line per
enrolled course ordered by course code. -/
def report_student (st : Store) (roll : String) :
    Except Err (List (String × Nat × Nat × Nat × ℚ)) :=
  match findStudentByRoll st roll with
  | none => .error (.systemExit ("Student not found: " ++ roll))
  | some stu =>
    let cs := st.courses.filter (fun c =>
      st.enrollments.any (fun e => e.studentId = stu.id ∧ e.courseId = c.id))
    .ok ((List.insertionSort courseLe cs).map (studentReportLine st stu.id))

/-! ### CSV export and import

csv.writer renders None as the empty string, so a NULL column and an empty
string column produce the same file content; csv.DictReader hands every
present column back as a string (an empty field becomes the empty string,
never None), and the INSERT binds that string, so a column that was NULL
before export is the empty string after re-import.  Integer columns travel
as their decimal text and SQLite INTEGER affinity turns that text back into
the same integer, an identity the model keeps as Nat.  The CHECK constraint
on attendance.status cannot fire when re-importing exported data because
every stored status already satisfies it. -/

/-- What csv.writer writes for a nullable column. -/
def csvCell : Option String → String
  | none => ""
  | some s => s

structure StudentCsvRow where
  id : Nat
  roll : String
  name : String
  email : String
deriving Repr, DecidableEq

structure CourseCsvRow where
  id : Nat
  code : String
  title : String
  teacher : String
deriving Repr, DecidableEq

structure EnrollmentCsvRow where
  studentId : Nat
  courseId : Nat
deriving Repr, DecidableEq

structure SessionCsvRow where
  id : Nat
  courseId : Nat
  sessionDate : String
  startTime : String
  endTime : String
  topic : String
deriving Repr, DecidableEq

structure AttendanceCsvRow where
  sessionId : Nat
  studentId : Nat
  status : String
  markedAt : String
deriving Repr, DecidableEq

/-- The five files export_csv writes. -/
structure CsvDump where
  students : List StudentCsvRow
  courses : List CourseCsvRow
  enrollments : List EnrollmentCsvRow
  sessions : List SessionCsvRow
  attendance : List AttendanceCsvRow
deriving Repr, DecidableEq

/-- ORDER BY course_id, student_id of the enrollments export. -/
def enrollmentLe (a b : Enrollment) : Prop :=
  a.courseId < b.courseId ∨ (a.courseId = b.courseId ∧ a.studentId ≤ b.studentId)

instance : DecidableRel enrollmentLe := fun _a _b =>
  inferInstanceAs (Decidable (_ ∨ _))

/-- ORDER BY session_date, course_id of the sessions export. -/
def sessionLe (a b : Session) : Prop :=
  a.sessionDate < b.sessionDate ∨
    (a.sessionDate = b.sessionDate ∧ a.courseId ≤ b.courseId)

instance : DecidableRel sessionLe := fun _a _b =>
  inferInstanceAs (Decidable (_ ∨ _))

/-- ORDER BY session_id, student_id of the attendance export. -/
def attendanceLe (a b : AttendanceRow) : Prop :=
  a.sessionId < b.sessionId ∨ (a.sessionId = b.sessionId ∧ a.studentId ≤ b.studentId)

instance : DecidableRel attendanceLe := fun _a _b =>
  inferInstanceAs (Decidable (_ ∨ _))

/-- export_csv: one file per table, each in its ORDER BY order, nullable
columns written through csvCell. -/
def export_csv (st : Store) : CsvDump where
  students := (List.insertionSort studentLe st.students).map (fun s =>
    ⟨s.id, s.roll, s.name, csvCell s.email⟩)
  courses := (List.insertionSort courseLe st.courses).map (fun c =>
    ⟨c.id, c.code, c.title, csvCell c.teacher⟩)
  enrollments := (List.insertionSort enrollmentLe st.enrollments).map (fun e =>
    ⟨e.studentId, e.courseId⟩)
  sessions := (List.insertionSort sessionLe st.sessions).map (fun s =>
    ⟨s.id, s.courseId, s.sessionDate, csvCell s.startTime, csvCell s.endTime,
     csvCell s.topic⟩)
  attendance := (List.insertionSort attendanceLe st.attendance).map (fun a =>
    ⟨a.sessionId, a.studentId, a.status, a.markedAt⟩)

/-- INSERT OR REPLACE keyed by the (possibly composite) key extracted by
key: delete any row with the same key value and insert the new row (with an
explicit rowid the replaced row keeps its scan position). -/
def insertOrReplaceKeyed {α κ : Type} [DecidableEq κ] (key : α → κ)
    (l : List α) (x : α) : List α :=
  if l.any (fun t => key t = key x) then
    l.map (fun t => if key t = key x then x else t)
  else l ++ [x]

/-- INSERT OR IGNORE keyed by the key extracted by key. -/
def insertOrIgnoreKeyed {α κ : Type} [DecidableEq κ] (key : α → κ)
    (l : List α) (x : α) : List α :=
  if l.any (fun t => key t = key x) then l else l ++ [x]

/-- import_csv: each file (when present — the model imports a full dump) is
read row by row; every column read back from the file is a string, so the
nullable columns are bound as (non-NULL) strings.  students, courses and
sessions use INSERT OR REPLACE on their id primary key; enrollments uses
INSERT OR IGNORE and attendance INSERT OR REPLACE on their composite primary
keys. -/
def import_csv (st : Store) (d : CsvDump) : Store where
  students := d.students.foldl (fun l r =>
    insertOrReplaceKeyed Student.id l ⟨r.id, r.roll, r.name, some r.email⟩)
    st.students
  courses := d.courses.foldl (fun l r =>
    insertOrReplaceKeyed Course.id l ⟨r.id, r.code, r.title, some r.teacher⟩)
    st.courses
  enrollments := d.enrollments.foldl (fun l r =>
    insertOrIgnoreKeyed (fun e => (e.studentId, e.courseId)) l
      ⟨r.studentId, r.courseId⟩) st.enrollments
  sessions := d.sessions.foldl (fun l r =>
    insertOrReplaceKeyed Session.id l
      ⟨r.id, r.courseId, r.sessionDate, some r.startTime, some r.endTime,
       some r.topic⟩) st.sessions
  attendance := d.attendance.foldl (fun l r =>
    insertOrReplaceKeyed (fun a => (a.sessionId, a.studentId)) l
      ⟨r.sessionId, r.studentId, r.status, r.markedAt⟩) st.attendance

/-- Export followed by import into a fresh empty store. -/
def csvRoundTrip (st : Store) : Store := import_csv emptyStore (export_csv st)

/-! ### Derived notions and concrete stores used by the verification -/

/-- The attendance rows stored for one (session, student) pair. -/
def attFor (l : List AttendanceRow) (sid stid : Nat) : List AttendanceRow :=
  l.filter (attMatches sid stid)

/-- What the CSV round trip does to a student row: a NULL email comes back
as the empty string. -/
def csvNormStudent (s : Student) : Student :=
  ⟨s.id, s.roll, s.name, some (csvCell s.email)⟩

/-- What the CSV round trip does to a course row. -/
def csvNormCourse (c : Course) : Course :=
  ⟨c.id, c.code, c.title, some (csvCell c.teacher)⟩

/-- What the CSV round trip does to a session row. -/
def csvNormSession (s : Session) : Session :=
  ⟨s.id, s.courseId, s.sessionDate, some (csvCell s.startTime),
   some (csvCell s.endTime), some (csvCell s.topic)⟩

/-- One student enrolled in two courses; the only session and the only
attendance row belong to the second course. -/
def storeCrossCourse : Store :=
  { students := [⟨1, "S1", "Alice", none⟩],
    courses := [⟨1, "C1", "T1", none⟩, ⟨2, "C2", "T2", none⟩],
    enrollments := [⟨1, 1⟩, ⟨1, 2⟩],
    sessions := [⟨1, 2, "2024-01-10", none, none, none⟩],
    attendance := [⟨1, 1, "P", "t"⟩] }

/-- One enrolled student, one course, no session yet. -/
def storeOneEnrolled : Store :=
  { students := [⟨1, "S1", "Alice", none⟩],
    courses := [⟨1, "C1", "T1", none⟩],
    enrollments := [⟨1, 1⟩],
    sessions := [],
    attendance := [] }

/-- A single student row whose optional email column is NULL. -/
def storeNullEmail : Store :=
  { students := [⟨1, "r", "n", none⟩],
    courses := [], enrollments := [], sessions := [], attendance := [] }

/-- One course with one session and one enrolled student marked present. -/
def storeMarked : Store :=
  { students := [⟨1, "S1", "Alice", none⟩],
    courses := [⟨1, "C1", "T1", none⟩],
    enrollments := [⟨1, 1⟩],
    sessions := [⟨1, 1, "2024-01-10", some "09:00", none, none⟩],
    attendance := [⟨1, 1, "P", "ts"⟩] }

/-- Two students, one course; only the first student is enrolled. -/
def storeOneUnenrolled : Store :=
  { students := [⟨1, "S1", "Alice", none⟩, ⟨2, "S2", "Bob", none⟩],
    courses := [⟨1, "C1", "T1", none⟩],
    enrollments := [⟨1, 1⟩],
    sessions := [],
    attendance := [] }

/-- One course with 160 sessions; the single enrolled student was present
in 23 of them.  23 / 160 * 100 is exactly 14.375, but the double holding
attended / total_sessions is a hair below 23 / 160, so the program reports
14.37 where exact arithmetic would round the tie up to 14.38. -/
def storeManySessions : Store :=
  { students := [⟨1, "S1", "Alice", none⟩],
    courses := [⟨1, "C1", "T1", none⟩],
    enrollments := [⟨1, 1⟩],
    sessions := (List.range 160).map
      (fun i => ⟨i + 1, 1, "2024-01-10", none, none, none⟩),
    attendance := (List.range 23).map (fun i => ⟨i + 1, 1, "P", "t"⟩) }

/-! ### Helper lemmas about the attendance upsert -/

theorem attMatches_iff {sid stid : Nat} {a : AttendanceRow} :
    attMatches sid stid a = true ↔ a.sessionId = sid ∧ a.studentId = stid := by
  simp [attMatches]

theorem attMatches_update {sid stid : Nat} {a : AttendanceRow}
    {status now : String} :
    attMatches sid stid { a with status := status, markedAt := now } =
      attMatches sid stid a := by
  simp [attMatches]

theorem attFor_upsert_map (l : List AttendanceRow) (sid stid : Nat)
    (status now : String) :
    attFor (l.map (fun a =>
      if attMatches sid stid a then { a with status := status, markedAt := now }
      else a)) sid stid =
    (attFor l sid stid).map
      (fun a => { a with status := status, markedAt := now }) := by
  induction l with
  | nil => simp [attFor]
  | cons x xs ih =>
    unfold attFor at ih ⊢
    by_cases hx : attMatches sid stid x = true
    · simp only [List.map_cons, List.filter_cons, hx, if_pos, attMatches_update, ih]
    · rw [Bool.not_eq_true] at hx
      simp [hx, ih]

theorem attFor_upsert_self (l : List AttendanceRow) (sid stid : Nat)
    (status now : String) (h : (attFor l sid stid).length ≤ 1) :
    attFor (upsertAttendanceList l sid stid status now) sid stid =
      [⟨sid, stid, status, now⟩] := by
  unfold upsertAttendanceList
  by_cases hany : l.any (attMatches sid stid) = true
  · rw [if_pos hany, attFor_upsert_map]
    have hne : attFor l sid stid ≠ [] := by
      rw [List.any_eq_true] at hany
      obtain ⟨a, ha, hpa⟩ := hany
      intro hnil
      have hmem : a ∈ attFor l sid stid := List.mem_filter.mpr ⟨ha, hpa⟩
      rw [hnil] at hmem
      exact absurd hmem (List.not_mem_nil a)
    obtain ⟨x, hxl⟩ : ∃ x, attFor l sid stid = [x] := by
      match hfl : attFor l sid stid with
      | [] => exact absurd hfl hne
      | [x] => exact ⟨x, rfl⟩
      | x :: y :: rest => rw [hfl] at h; simp at h
    have hx : x.sessionId = sid ∧ x.studentId = stid := by
      have hmem : x ∈ attFor l sid stid := by
        rw [hxl]; exact List.mem_singleton_self x
      exact attMatches_iff.mp (List.of_mem_filter hmem)
    rw [hxl]
    simp only [List.map_cons, List.map_nil]
    congr 1
    cases x
    simp_all
  · rw [if_neg hany]
    unfold attFor
    rw [List.filter_append]
    have h1 : l.filter (attMatches sid stid) = [] := by
      rw [List.filter_eq_nil_iff]
      intro a ha
      rw [List.any_eq_true] at hany
      push_neg at hany
      simpa using hany a ha
    rw [h1]
    simp [attMatches]

theorem upsert_exists_now (l : List AttendanceRow) (sid stid : Nat)
    (status now : String) :
    ∃ a ∈ upsertAttendanceList l sid stid status now,
      a.sessionId = sid ∧ a.studentId = stid ∧ a.markedAt = now := by
  unfold upsertAttendanceList
  by_cases hany : l.any (attMatches sid stid) = true
  · rw [if_pos hany]
    rw [List.any_eq_true] at hany
    obtain ⟨a, ha, hpa⟩ := hany
    refine ⟨{ a with status := status, markedAt := now }, ?_, ?_⟩
    · rw [List.mem_map]
      exact ⟨a, ha, by rw [if_pos hpa]⟩
    · obtain ⟨h1, h2⟩ := attMatches_iff.mp hpa
      exact ⟨h1, h2, rfl⟩
  · rw [if_neg hany]
    exact ⟨⟨sid, stid, status, now⟩,
      List.mem_append_right l (List.mem_singleton_self _), rfl, rfl, rfl⟩

theorem upsert_preserves_now (l : List AttendanceRow) (sid stid sid₀ stid₀ : Nat)
    (status now : String)
    (h : ∃ a ∈ l, a.sessionId = sid₀ ∧ a.studentId = stid₀ ∧ a.markedAt = now) :
    ∃ a ∈ upsertAttendanceList l sid stid status now,
      a.sessionId = sid₀ ∧ a.studentId = stid₀ ∧ a.markedAt = now := by
  obtain ⟨a, ha, h1, h2, h3⟩ := h
  unfold upsertAttendanceList
  by_cases hany : l.any (attMatches sid stid) = true
  · rw [if_pos hany]
    by_cases hpa : attMatches sid stid a = true
    · refine ⟨{ a with status := status, markedAt := now }, ?_, h1, h2, rfl⟩
      rw [List.mem_map]
      exact ⟨a, ha, by rw [if_pos hpa]⟩
    · rw [Bool.not_eq_true] at hpa
      refine ⟨a, ?_, h1, h2, h3⟩
      rw [List.mem_map]
      exact ⟨a, ha, by simp [hpa]⟩
  · rw [if_neg hany]
    exact ⟨a, List.mem_append_left _ ha, h1, h2, h3⟩

/-! ### Helper lemmas about the per-pair loop -/

theorem processMarks_fields {st st2 : Store} {sid cid : Nat} {cc : String}
    {marks : List (String × String)} {now : String}
    (h : processMarks st sid cid cc marks now = .ok st2) :
    st2.students = st.students ∧ st2.courses = st.courses ∧
    st2.enrollments = st.enrollments ∧ st2.sessions = st.sessions := by
  induction marks generalizing st with
  | nil =>
    unfold processMarks at h
    cases h
    exact ⟨rfl, rfl, rfl, rfl⟩
  | cons p rest ih =>
    obtain ⟨roll, status⟩ := p
    unfold processMarks at h
    by_cases hs : status = "P" ∨ status = "A" ∨ status = "L"
    · rw [if_pos hs] at h
      cases hstu : findStudentByRoll st roll with
      | none => rw [hstu] at h; cases h
      | some stu =>
        rw [hstu] at h
        dsimp only at h
        by_cases hen : st.enrollments.any
            (fun e => e.studentId = stu.id ∧ e.courseId = cid) = true
        · rw [if_pos hen] at h
          simpa [upsertAttendance] using ih h
        · rw [if_neg hen] at h; cases h
    · rw [if_neg hs] at h; cases h

theorem processMarks_error_systemExit {st : Store} {sid cid : Nat} {cc : String}
    {marks : List (String × String)} {now : String} {e : Err}
    (h : processMarks st sid cid cc marks now = .error e) :
    ∃ m, e = .systemExit m := by
  induction marks generalizing st with
  | nil => unfold processMarks at h; cases h
  | cons p rest ih =>
    obtain ⟨roll, status⟩ := p
    unfold processMarks at h
    by_cases hs : status = "P" ∨ status = "A" ∨ status = "L"
    · rw [if_pos hs] at h
      cases hstu : findStudentByRoll st roll with
      | none => rw [hstu] at h; dsimp only at h; cases h; exact ⟨_, rfl⟩
      | some stu =>
        rw [hstu] at h
        dsimp only at h
        by_cases hen : st.enrollments.any
            (fun e => e.studentId = stu.id ∧ e.courseId = cid) = true
        · rw [if_pos hen] at h
          exact ih h
        · rw [if_neg hen] at h; cases h; exact ⟨_, rfl⟩
    · rw [if_neg hs] at h; cases h; exact ⟨_, rfl⟩

theorem processMarks_ok_valid {st st2 : Store} {sid cid : Nat} {cc : String}
    {marks : List (String × String)} {now : String}
    (h : processMarks st sid cid cc marks now = .ok st2) :
    ∀ p ∈ marks, (p.2 = "P" ∨ p.2 = "A" ∨ p.2 = "L") ∧
      ∃ stu, findStudentByRoll st p.1 = some stu ∧
        st.enrollments.any
          (fun e => e.studentId = stu.id ∧ e.courseId = cid) = true := by
  induction marks generalizing st with
  | nil => intro p hp; cases hp
  | cons q rest ih =>
    intro p hp
    obtain ⟨roll, status⟩ := q
    unfold processMarks at h
    by_cases hs : status = "P" ∨ status = "A" ∨ status = "L"
    · rw [if_pos hs] at h
      cases hstu : findStudentByRoll st roll with
      | none => rw [hstu] at h; dsimp only at h; cases h
      | some stu =>
        rw [hstu] at h
        dsimp only at h
        by_cases hen : st.enrollments.any
            (fun e => e.studentId = stu.id ∧ e.courseId = cid) = true
        · rw [if_pos hen] at h
          rcases List.mem_cons.mp hp with hph | hpr
          · subst hph
            exact ⟨hs, stu, hstu, hen⟩
          · have := ih h p hpr
            simpa [upsertAttendance, findStudentByRoll] using this
        · rw [if_neg hen] at h; cases h
    · rw [if_neg hs] at h; cases h

theorem processMarks_preserves_now {st st2 : Store} {sid cid sid₀ stid₀ : Nat}
    {cc : String} {marks : List (String × String)} {now : String}
    (h : processMarks st sid cid cc marks now = .ok st2)
    (hex : ∃ a ∈ st.attendance,
      a.sessionId = sid₀ ∧ a.studentId = stid₀ ∧ a.markedAt = now) :
    ∃ a ∈ st2.attendance,
      a.sessionId = sid₀ ∧ a.studentId = stid₀ ∧ a.markedAt = now := by
  induction marks generalizing st with
  | nil => unfold processMarks at h; cases h; exact hex
  | cons q rest ih =>
    obtain ⟨roll, status⟩ := q
    unfold processMarks at h
    by_cases hs : status = "P" ∨ status = "A" ∨ status = "L"
    · rw [if_pos hs] at h
      cases hstu : findStudentByRoll st roll with
      | none => rw [hstu] at h; dsimp only at h; cases h
      | some stu =>
        rw [hstu] at h
        dsimp only at h
        by_cases hen : st.enrollments.any
            (fun e => e.studentId = stu.id ∧ e.courseId = cid) = true
        · rw [if_pos hen] at h
          exact ih h (upsert_preserves_now _ _ _ _ _ _ _ hex)
        · rw [if_neg hen] at h; cases h
    · rw [if_neg hs] at h; cases h

theorem processMarks_marks_now {st st2 : Store} {sid cid : Nat} {cc : String}
    {marks : List (String × String)} {now : String}
    (h : processMarks st sid cid cc marks now = .ok st2) :
    ∀ p ∈ marks, ∃ stu, findStudentByRoll st p.1 = some stu ∧
      ∃ a ∈ st2.attendance,
        a.sessionId = sid ∧ a.studentId = stu.id ∧ a.markedAt = now := by
  induction marks generalizing st with
  | nil => intro p hp; cases hp
  | cons q rest ih =>
    intro p hp
    obtain ⟨roll, status⟩ := q
    unfold processMarks at h
    by_cases hs : status = "P" ∨ status = "A" ∨ status = "L"
    · rw [if_pos hs] at h
      cases hstu : findStudentByRoll st roll with
      | none => rw [hstu] at h; dsimp only at h; cases h
      | some stu =>
        rw [hstu] at h
        dsimp only at h
        by_cases hen : st.enrollments.any
            (fun e => e.studentId = stu.id ∧ e.courseId = cid) = true
        · rw [if_pos hen] at h
          rcases List.mem_cons.mp hp with hph | hpr
          · subst hph
            refine ⟨stu, hstu, ?_⟩
            exact processMarks_preserves_now h
              (upsert_exists_now st.attendance sid stu.id status now)
          · have := ih h p hpr
            simpa [upsertAttendance, findStudentByRoll] using this
        · rw [if_neg hen] at h; cases h
    · rw [if_neg hs] at h; cases h

theorem processMarks_single {st st2 : Store} {sid cid : Nat} {cc : String}
    {roll status now : String}
    (h : processMarks st sid cid cc [(roll, status)] now = .ok st2) :
    ∃ stu, findStudentByRoll st roll = some stu ∧
      st2 = upsertAttendance st sid stu.id status now := by
  unfold processMarks at h
  by_cases hs : status = "P" ∨ status = "A" ∨ status = "L"
  · rw [if_pos hs] at h
    cases hstu : findStudentByRoll st roll with
    | none => rw [hstu] at h; dsimp only at h; cases h
    | some stu =>
      rw [hstu] at h
      dsimp only at h
      by_cases hen : st.enrollments.any
          (fun e => e.studentId = stu.id ∧ e.courseId = cid) = true
      · rw [if_pos hen] at h
        unfold processMarks at h
        cases h
        exact ⟨stu, rfl, rfl⟩
      · rw [if_neg hen] at h; cases h
  · rw [if_neg hs] at h; cases h

/-! ### Helper lemmas about the session resolver -/

theorem findCourse_congr {st st' : Store} (cc : String)
    (h : st'.courses = st.courses) : findCourse st' cc = findCourse st cc := by
  unfold findCourse; rw [h]

theorem conflicts_implies_isMatch {s : Session} {cid : Nat} {d : String}
    {t : Option String} (h : sessionConflicts s cid d t = true) :
    sessionIsMatch s cid d t = true := by
  unfold sessionConflicts at h
  unfold sessionIsMatch
  cases hs : s.startTime with
  | none => rw [hs] at h; simp at h
  | some a =>
    cases ht : t with
    | none => rw [hs, ht] at h; simp at h
    | some b =>
      rw [hs, ht] at h
      simp only [Bool.and_eq_true, decide_eq_true_eq] at h
      obtain ⟨⟨h1, h2⟩, h3⟩ := h
      simp [hs, ht, h1, h2, h3, sessionIsMatch]

theorem isMatch_new (n cid : Nat) (d : String) (t e tp : Option String) :
    sessionIsMatch ⟨n, cid, d, t, e, tp⟩ cid d t = true := by
  simp [sessionIsMatch]

theorem ensure_ok_elim {st st1 : Store} {cc d : String} {t e tp : Option String}
    {sid : Nat}
    (h : ensure_course_session st cc d t e tp = .ok (st1, sid)) :
    ∃ c, findCourse st cc = some c ∧
      ((st.sessions.any (fun s => sessionConflicts s c.id d t) = true ∧ st1 = st) ∨
       (st.sessions.any (fun s => sessionConflicts s c.id d t) = false ∧
         st1 = { st with sessions := st.sessions ++
           [⟨nextSessionId st, c.id, d, t, e, tp⟩] })) ∧
      sid = ((st1.sessions.find? (fun s => sessionIsMatch s c.id d t)).map
        Session.id).getD 0 := by
  unfold ensure_course_session at h
  cases hc : findCourse st cc with
  | none => rw [hc] at h; cases h
  | some c =>
    rw [hc] at h
    dsimp only at h
    by_cases hany : st.sessions.any (fun s => sessionConflicts s c.id d t) = true
    · rw [if_pos hany] at h
      cases h
      exact ⟨c, rfl, Or.inl ⟨hany, rfl⟩, rfl⟩
    · rw [if_neg hany] at h
      cases h
      exact ⟨c, rfl, Or.inr ⟨Bool.not_eq_true _ ▸ Bool.of_not_eq_true hany, rfl⟩, rfl⟩

theorem ensure_fields {st st1 : Store} {cc d : String} {t e tp : Option String}
    {sid : Nat}
    (h : ensure_course_session st cc d t e tp = .ok (st1, sid)) :
    st1.students = st.students ∧ st1.courses = st.courses ∧
    st1.enrollments = st.enrollments ∧ st1.attendance = st.attendance := by
  obtain ⟨c, _, hbr, _⟩ := ensure_ok_elim h
  rcases hbr with ⟨_, h1⟩ | ⟨_, h1⟩ <;> subst h1 <;> exact ⟨rfl, rfl, rfl, rfl⟩

theorem ensure_find {st st1 : Store} {cc d : String} {t e tp : Option String}
    {sid : Nat} {c : Course}
    (h : ensure_course_session st cc d t e tp = .ok (st1, sid))
    (hc : findCourse st cc = some c) :
    ∃ srow, st1.sessions.find? (fun s => sessionIsMatch s c.id d t) = some srow ∧
      srow.id = sid ∧ srow ∈ st1.sessions := by
  obtain ⟨c', hc', hbr, hsid⟩ := ensure_ok_elim h
  rw [hc] at hc'
  cases hc'
  have hsome : ∃ x ∈ st1.sessions, sessionIsMatch x c.id d t = true := by
    rcases hbr with ⟨hany, h1⟩ | ⟨hany, h1⟩
    · subst h1
      rw [List.any_eq_true] at hany
      obtain ⟨s, hs, hcf⟩ := hany
      exact ⟨s, hs, conflicts_implies_isMatch hcf⟩
    · subst h1
      exact ⟨⟨nextSessionId st, c.id, d, t, e, tp⟩,
        List.mem_append_right _ (List.mem_singleton_self _),
        isMatch_new _ _ _ _ _ _⟩
  have hiss : (st1.sessions.find?
      (fun s => sessionIsMatch s c.id d t)).isSome = true :=
    List.find?_isSome.mpr hsome
  cases hfind : st1.sessions.find? (fun s => sessionIsMatch s c.id d t) with
  | none => rw [hfind] at hiss; cases hiss
  | some srow =>
    refine ⟨srow, rfl, ?_, List.mem_of_find?_eq_some hfind⟩
    rw [hsid, hfind]
    rfl

theorem ensure_again {st st1 : Store} {cc d : String} {t e tp : Option String}
    {sid : Nat} (st' : Store)
    (h : ensure_course_session st cc d t e tp = .ok (st1, sid))
    (hco : st'.courses = st.courses) (hse : st'.sessions = st1.sessions) :
    ∃ st2, ensure_course_session st' cc d t e tp = .ok (st2, sid) ∧
      st2.students = st'.students ∧ st2.courses = st'.courses ∧
      st2.enrollments = st'.enrollments ∧ st2.attendance = st'.attendance := by
  obtain ⟨c, hc, _, _⟩ := ensure_ok_elim h
  obtain ⟨srow, hfind, hid, _⟩ := ensure_find h hc
  have hc' : findCourse st' cc = some c := by rw [findCourse_congr cc hco, hc]
  unfold ensure_course_session
  rw [hc']
  dsimp only
  by_cases hany : st'.sessions.any (fun s => sessionConflicts s c.id d t) = true
  · rw [if_pos hany]
    refine ⟨st', ?_, rfl, rfl, rfl, rfl⟩
    rw [hse, hfind]
    simp [hid]
  · rw [if_neg hany]
    have hsid : (Option.map Session.id (List.find?
        (fun s => sessionIsMatch s c.id d t)
        (st'.sessions ++ [⟨nextSessionId st', c.id, d, t, e, tp⟩]))).getD 0 = sid := by
      rw [hse, List.find?_append, hfind]
      simp [hid]
    refine ⟨{ st' with sessions := st'.sessions ++
        [⟨nextSessionId st', c.id, d, t, e, tp⟩] }, ?_, rfl, rfl, rfl, rfl⟩
    rw [hsid]

theorem ensure_ok_of_findCourse {st : Store} {cc d : String}
    {t e tp : Option String} {c : Course} (hc : findCourse st cc = some c) :
    ∃ st1 sid, ensure_course_session st cc d t e tp = .ok (st1, sid) := by
  unfold ensure_course_session
  rw [hc]
  exact ⟨_, _, rfl⟩

theorem mark_eq {st st1 : Store} {cc d : String} {t e tp : Option String}
    {sid : Nat} {c : Course} {marks : List (String × String)} {now : String}
    (h : ensure_course_session st cc d t e tp = .ok (st1, sid))
    (hc : findCourse st cc = some c) :
    mark_attendance st cc d marks t e tp now =
      match processMarks st1 sid c.id cc marks now with
      | .error err => (st1, .error err)
      | .ok st2 => (st2, .ok ()) := by
  unfold mark_attendance
  rw [h]
  dsimp only
  have hc1 : findCourse st1 cc = some c := by
    rw [findCourse_congr cc (ensure_fields h).2.1, hc]
  rw [hc1]

theorem enroll_eq_of_found {st : Store} {roll code : String} {stu : Student}
    {c : Course} (hs : findStudentByRoll st roll = some stu)
    (hc2 : findCourse st code = some c) :
    enroll_student st roll code =
      (if st.enrollments.any
          (fun en => en.studentId = stu.id ∧ en.courseId = c.id) then
        (st, .ok ())
      else
        ({ st with enrollments := st.enrollments ++ [⟨stu.id, c.id⟩] },
         .ok ())) := by
  unfold enroll_student
  rw [hs]
  dsimp only
  rw [hc2]

theorem round2_zero : round2 0 = 0 := by
  norm_num [round2, pyRoundHalfEven, Rat.floor]

/-! ### Helper lemmas about the CSV round trip -/

theorem foldl_insertOrReplaceKeyed {α κ : Type} [DecidableEq κ] (key : α → κ) :
    ∀ (rows acc : List α),
      (∀ x ∈ rows, ∀ t ∈ acc, key t ≠ key x) →
      (rows.map key).Nodup →
      rows.foldl (insertOrReplaceKeyed key) acc = acc ++ rows := by
  intro rows
  induction rows with
  | nil => intro acc _ _; simp
  | cons x xs ih =>
    intro acc hdisj hnodup
    rw [List.foldl_cons]
    have hnotin : acc.any (fun t => key t = key x) = false := by
      rw [Bool.eq_false_iff]
      intro hcontra
      rw [List.any_eq_true] at hcontra
      obtain ⟨t, ht, hkt⟩ := hcontra
      exact hdisj x (List.mem_cons_self _ _) t ht (by simpa using hkt)
    have step : insertOrReplaceKeyed key acc x = acc ++ [x] := by
      unfold insertOrReplaceKeyed
      rw [hnotin]
      simp
    rw [step]
    rw [List.map_cons, List.nodup_cons] at hnodup
    rw [ih (acc ++ [x]) ?_ hnodup.2]
    · simp
    · intro y hy t ht
      rcases List.mem_append.mp ht with hta | htx
      · exact hdisj y (List.mem_cons_of_mem _ hy) t hta
      · rw [List.mem_singleton] at htx
        subst htx
        intro hxy
        exact hnodup.1 (hxy ▸ List.mem_map_of_mem key hy)

theorem foldl_insertOrIgnoreKeyed {α κ : Type} [DecidableEq κ] (key : α → κ) :
    ∀ (rows acc : List α),
      (∀ x ∈ rows, ∀ t ∈ acc, key t ≠ key x) →
      (rows.map key).Nodup →
      rows.foldl (insertOrIgnoreKeyed key) acc = acc ++ rows := by
  intro rows
  induction rows with
  | nil => intro acc _ _; simp
  | cons x xs ih =>
    intro acc hdisj hnodup
    rw [List.foldl_cons]
    have hnotin : acc.any (fun t => key t = key x) = false := by
      rw [Bool.eq_false_iff]
      intro hcontra
      rw [List.any_eq_true] at hcontra
      obtain ⟨t, ht, hkt⟩ := hcontra
      exact hdisj x (List.mem_cons_self _ _) t ht (by simpa using hkt)
    have step : insertOrIgnoreKeyed key acc x = acc ++ [x] := by
      unfold insertOrIgnoreKeyed
      rw [hnotin]
      simp
    rw [step]
    rw [List.map_cons, List.nodup_cons] at hnodup
    rw [ih (acc ++ [x]) ?_ hnodup.2]
    · simp
    · intro y hy t ht
      rcases List.mem_append.mp ht with hta | htx
      · exact hdisj y (List.mem_cons_of_mem _ hy) t hta
      · rw [List.mem_singleton] at htx
        subst htx
        intro hxy
        exact hnodup.1 (hxy ▸ List.mem_map_of_mem key hy)

theorem roundTrip_students (st : Store)
    (h1 : (st.students.map Student.id).Nodup) :
    (csvRoundTrip st).students =
      (List.insertionSort studentLe st.students).map csvNormStudent := by
  have hperm := List.perm_insertionSort studentLe st.students
  have hnodup : (((List.insertionSort studentLe st.students).map
      csvNormStudent).map Student.id).Nodup := by
    rw [List.map_map]
    have heq : (List.insertionSort studentLe st.students).map
        (Student.id ∘ csvNormStudent) =
        (List.insertionSort studentLe st.students).map Student.id :=
      List.map_congr_left (fun a _ => rfl)
    rw [heq]
    exact ((hperm.map Student.id).nodup_iff).mpr h1
  have hfold := foldl_insertOrReplaceKeyed Student.id
    ((List.insertionSort studentLe st.students).map csvNormStudent) []
    (by intro x _ t ht; cases ht) hnodup
  rw [List.foldl_map] at hfold
  simp only [csvNormStudent] at hfold
  show (export_csv st).students.foldl (fun l r =>
      insertOrReplaceKeyed Student.id l ⟨r.id, r.roll, r.name, some r.email⟩)
      [] = _
  have hexp : (export_csv st).students =
      (List.insertionSort studentLe st.students).map
        (fun s => (⟨s.id, s.roll, s.name, csvCell s.email⟩ : StudentCsvRow)) := rfl
  rw [hexp, List.foldl_map]
  dsimp only
  rw [hfold]
  simp [csvNormStudent]

theorem roundTrip_courses (st : Store)
    (h2 : (st.courses.map Course.id).Nodup) :
    (csvRoundTrip st).courses =
      (List.insertionSort courseLe st.courses).map csvNormCourse := by
  have hperm := List.perm_insertionSort courseLe st.courses
  have hnodup : (((List.insertionSort courseLe st.courses).map
      csvNormCourse).map Course.id).Nodup := by
    rw [List.map_map]
    have heq : (List.insertionSort courseLe st.courses).map
        (Course.id ∘ csvNormCourse) =
        (List.insertionSort courseLe st.courses).map Course.id :=
      List.map_congr_left (fun a _ => rfl)
    rw [heq]
    exact ((hperm.map Course.id).nodup_iff).mpr h2
  have hfold := foldl_insertOrReplaceKeyed Course.id
    ((List.insertionSort courseLe st.courses).map csvNormCourse) []
    (by intro x _ t ht; cases ht) hnodup
  rw [List.foldl_map] at hfold
  simp only [csvNormCourse] at hfold
  show (export_csv st).courses.foldl (fun l r =>
      insertOrReplaceKeyed Course.id l ⟨r.id, r.code, r.title, some r.teacher⟩)
      [] = _
  have hexp : (export_csv st).courses =
      (List.insertionSort courseLe st.courses).map
        (fun c => (⟨c.id, c.code, c.title, csvCell c.teacher⟩ : CourseCsvRow)) := rfl
  rw [hexp, List.foldl_map]
  dsimp only
  rw [hfold]
  simp [csvNormCourse]

theorem roundTrip_sessions (st : Store)
    (h3 : (st.sessions.map Session.id).Nodup) :
    (csvRoundTrip st).sessions =
      (List.insertionSort sessionLe st.sessions).map csvNormSession := by
  have hperm := List.perm_insertionSort sessionLe st.sessions
  have hnodup : (((List.insertionSort sessionLe st.sessions).map
      csvNormSession).map Session.id).Nodup := by
    rw [List.map_map]
    have heq : (List.insertionSort sessionLe st.sessions).map
        (Session.id ∘ csvNormSession) =
        (List.insertionSort sessionLe st.sessions).map Session.id :=
      List.map_congr_left (fun a _ => rfl)
    rw [heq]
    exact ((hperm.map Session.id).nodup_iff).mpr h3
  have hfold := foldl_insertOrReplaceKeyed Session.id
    ((List.insertionSort sessionLe st.sessions).map csvNormSession) []
    (by intro x _ t ht; cases ht) hnodup
  rw [List.foldl_map] at hfold
  simp only [csvNormSession] at hfold
  show (export_csv st).sessions.foldl (fun l r =>
      insertOrReplaceKeyed Session.id l
        ⟨r.id, r.courseId, r.sessionDate, some r.startTime, some r.endTime,
         some r.topic⟩) [] = _
  have hexp : (export_csv st).sessions =
      (List.insertionSort sessionLe st.sessions).map
        (fun s => (⟨s.id, s.courseId, s.sessionDate, csvCell s.startTime,
          csvCell s.endTime, csvCell s.topic⟩ : SessionCsvRow)) := rfl
  rw [hexp, List.foldl_map]
  dsimp only
  rw [hfold]
  simp [csvNormSession]

theorem roundTrip_enrollments (st : Store)
    (h4 : (st.enrollments.map (fun e => (e.studentId, e.courseId))).Nodup) :
    (csvRoundTrip st).enrollments =
      List.insertionSort enrollmentLe st.enrollments := by
  have hperm := List.perm_insertionSort enrollmentLe st.enrollments
  have hnodup : ((List.insertionSort enrollmentLe st.enrollments).map
      (fun e => (e.studentId, e.courseId))).Nodup :=
    ((hperm.map _).nodup_iff).mpr h4
  have hfold := foldl_insertOrIgnoreKeyed
    (fun e : Enrollment => (e.studentId, e.courseId))
    (List.insertionSort enrollmentLe st.enrollments) []
    (by intro x _ t ht; cases ht) hnodup
  show (export_csv st).enrollments.foldl (fun l r =>
      insertOrIgnoreKeyed (fun e : Enrollment => (e.studentId, e.courseId)) l
        (⟨r.studentId, r.courseId⟩ : Enrollment)) [] = _
  have hexp : (export_csv st).enrollments =
      (List.insertionSort enrollmentLe st.enrollments).map
        (fun e => (⟨e.studentId, e.courseId⟩ : EnrollmentCsvRow)) := rfl
  rw [hexp, List.foldl_map]
  dsimp only
  rw [hfold]
  simp

theorem roundTrip_attendance (st : Store)
    (h5 : (st.attendance.map (fun a => (a.sessionId, a.studentId))).Nodup) :
    (csvRoundTrip st).attendance =
      List.insertionSort attendanceLe st.attendance := by
  have hperm := List.perm_insertionSort attendanceLe st.attendance
  have hnodup : ((List.insertionSort attendanceLe st.attendance).map
      (fun a => (a.sessionId, a.studentId))).Nodup :=
    ((hperm.map _).nodup_iff).mpr h5
  have hfold := foldl_insertOrReplaceKeyed
    (fun a : AttendanceRow => (a.sessionId, a.studentId))
    (List.insertionSort attendanceLe st.attendance) []
    (by intro x _ t ht; cases ht) hnodup
  show (export_csv st).attendance.foldl (fun l r =>
      insertOrReplaceKeyed (fun a : AttendanceRow => (a.sessionId, a.studentId)) l
        (⟨r.sessionId, r.studentId, r.status, r.markedAt⟩ : AttendanceRow))
      [] = _
  have hexp : (export_csv st).attendance =
      (List.insertionSort attendanceLe st.attendance).map
        (fun a => (⟨a.sessionId, a.studentId, a.status, a.markedAt⟩ :
          AttendanceCsvRow)) := rfl
  rw [hexp, List.foldl_map]
  dsimp only
  rw [hfold]
  simp

/-! ### The claims -/

/-- C1.  The claim says the per-student counts of the Course Report only
count attendance rows lying in sessions of the reported course.  The code
refutes it: in storeCrossCourse, course C1 has zero sessions, so every count
restricted to sessions of C1 is necessarily zero, yet fetch_course_stats
reports present_count = 1 for the enrolled student — the count comes from an
attendance row in a session of course C2, because the attendance left join
of the source is keyed on the student only and the course filter sits on a
join whose columns the aggregate never reads. -/
theorem fetch_course_stats_counts_foreign_attendance :
    (storeCrossCourse.sessions.filter (fun s => s.courseId = 1)).length = 0 ∧
    findCourse storeCrossCourse "C1" = some ⟨1, "C1", "T1", none⟩ ∧
    fetch_course_stats storeCrossCourse "C1" =
      .ok (0, 1, [("S1", "Alice", 1, 0, 0, (0 : ℚ))]) := by
  refine ⟨by decide, by decide, ?_⟩
  norm_num [fetch_course_stats, findCourse, courseStatsCounts, studentLe, round2,
    pyRoundHalfEven, Rat.floor, List.insertionSort, List.orderedInsert,
    storeCrossCourse]
  decide

/-- C2.  The claim says repeated marking for the same (course, date,
start-time) — including an absent start-time — never creates a second
session row, and that at most one session row per (course, date) has no
start-time.  The code refutes it: marking twice with no start time creates
two session rows for the same (course, date, NULL) triple, because SQLite
treats the two NULL start times as distinct in the UNIQUE index, so the
INSERT OR IGNORE of ensure_course_session inserts again.  Both calls
succeed; the resolved identifier stays 1 while row 2 is a duplicate. -/
theorem mark_attendance_duplicates_null_start_session :
    (mark_attendance storeOneEnrolled "C1" "2024-01-10" [("S1", "P")]
        none none none "t1").2 = .ok () ∧
    (mark_attendance (mark_attendance storeOneEnrolled "C1" "2024-01-10"
        [("S1", "P")] none none none "t1").1 "C1" "2024-01-10" [("S1", "P")]
        none none none "t2").2 = .ok () ∧
    ((mark_attendance (mark_attendance storeOneEnrolled "C1" "2024-01-10"
        [("S1", "P")] none none none "t1").1 "C1" "2024-01-10" [("S1", "P")]
        none none none "t2").1).sessions =
      [⟨1, 1, "2024-01-10", none, none, none⟩,
       ⟨2, 1, "2024-01-10", none, none, none⟩] := by
  exact ⟨by decide, by decide, by decide⟩

/-- C3 counterexample.  Exporting a store whose only student has a NULL
email and importing it into a fresh store does not reproduce the same row:
the email comes back as the empty string, because a CSV file cannot tell a
NULL column from an empty one. -/
theorem csv_roundtrip_not_identity :
    csvRoundTrip storeNullEmail ≠ storeNullEmail ∧
    (csvRoundTrip storeNullEmail).students = [⟨1, "r", "n", some ""⟩] ∧
    storeNullEmail.students = [⟨1, "r", "n", none⟩] := by
  exact ⟨by decide, by decide, by decide⟩

/-- C4.  Marking the same (session, student) twice with valid statuses
leaves exactly one attendance row for the pair, carrying the status and
timestamp of the second mark: given a store whose attendance table has at
most one row for the pair (its primary key guarantees this), two successful
mark_attendance calls for the same course, date and start time leave the
pair with exactly the single row of the last write. -/
theorem mark_twice_last_write_wins {st stA stB st1 : Store} {cc d : String}
    {t e tp : Option String} {sid : Nat} {c : Course} {stu : Student}
    {roll s1 s2 now1 now2 : String}
    (hens : ensure_course_session st cc d t e tp = .ok (st1, sid))
    (hc : findCourse st cc = some c)
    (hstu : findStudentByRoll st roll = some stu)
    (hwf : (attFor st.attendance sid stu.id).length ≤ 1)
    (h1 : mark_attendance st cc d [(roll, s1)] t e tp now1 = (stA, .ok ()))
    (h2 : mark_attendance stA cc d [(roll, s2)] t e tp now2 = (stB, .ok ())) :
    attFor stB.attendance sid stu.id = [⟨sid, stu.id, s2, now2⟩] := by
  have hf1 := ensure_fields hens
  rw [mark_eq hens hc] at h1
  cases hpm1 : processMarks st1 sid c.id cc [(roll, s1)] now1 with
  | error e2 => rw [hpm1] at h1; dsimp only at h1; cases h1
  | ok stP =>
    rw [hpm1] at h1
    dsimp only at h1
    injection h1 with hA _
    subst hA
    obtain ⟨stu1, hstu1, hP⟩ := processMarks_single hpm1
    have hstu1' : stu1 = stu := by
      unfold findStudentByRoll at hstu1
      rw [hf1.1] at hstu1
      unfold findStudentByRoll at hstu
      rw [hstu] at hstu1
      exact (Option.some.injEq _ _ ▸ hstu1).symm ▸ rfl
    subst hstu1'
    subst hP
    have hcoA : (upsertAttendance st1 sid stu1.id s1 now1).courses = st.courses := by
      simp [upsertAttendance, hf1.2.1]
    have hseA : (upsertAttendance st1 sid stu1.id s1 now1).sessions = st1.sessions := by
      simp [upsertAttendance]
    obtain ⟨stA1, hensA, hfA⟩ :=
      ensure_again (upsertAttendance st1 sid stu1.id s1 now1) hens hcoA hseA
    have hcA : findCourse (upsertAttendance st1 sid stu1.id s1 now1) cc = some c := by
      rw [findCourse_congr cc hcoA, hc]
    rw [mark_eq hensA hcA] at h2
    cases hpm2 : processMarks stA1 sid c.id cc [(roll, s2)] now2 with
    | error e2 => rw [hpm2] at h2; dsimp only at h2; cases h2
    | ok stQ =>
      rw [hpm2] at h2
      dsimp only at h2
      injection h2 with hB _
      subst hB
      obtain ⟨stu2, hstu2, hQ⟩ := processMarks_single hpm2
      have hstu2' : stu2 = stu1 := by
        unfold findStudentByRoll at hstu2
        rw [hfA.1] at hstu2
        simp only [upsertAttendance] at hstu2
        rw [hf1.1] at hstu2
        unfold findStudentByRoll at hstu
        rw [hstu] at hstu2
        cases hstu2
        rfl
      subst hstu2'
      subst hQ
      have hattA1 : stA1.attendance =
          upsertAttendanceList st.attendance sid stu2.id s1 now1 := by
        rw [hfA.2.2.2]
        simp [upsertAttendance, hf1.2.2.2]
      have hfirst : attFor (upsertAttendanceList st.attendance sid stu2.id s1 now1)
          sid stu2.id = [⟨sid, stu2.id, s1, now1⟩] :=
        attFor_upsert_self _ _ _ _ _ hwf
      have hsecond := attFor_upsert_self
        (upsertAttendanceList st.attendance sid stu2.id s1 now1)
        sid stu2.id s2 now2 (by rw [hfirst]; simp)
      simp only [upsertAttendance]
      rw [hattA1]
      exact hsecond

/-- C6.  Marking attendance when one of the pairs names a student who exists
but is not enrolled in the resolved course makes the whole call fail with a
SystemExit (the validation error of the source) and commits no attendance
write at all — in particular no attendance row for that (session, student)
pair: the durable attendance table is exactly the one before the call. -/
theorem mark_unenrolled_fails_no_attendance {st : Store} {cc d : String}
    {t e tp : Option String} {marks : List (String × String)} {now : String}
    {c : Course} {r0 s0 : String} {stu : Student}
    (hc : findCourse st cc = some c)
    (hmem : (r0, s0) ∈ marks)
    (hstu : findStudentByRoll st r0 = some stu)
    (hnen : st.enrollments.any
      (fun e => e.studentId = stu.id ∧ e.courseId = c.id) = false) :
    (∃ m, (mark_attendance st cc d marks t e tp now).2 = .error (.systemExit m)) ∧
      (mark_attendance st cc d marks t e tp now).1.attendance = st.attendance := by
  obtain ⟨st1, sid, hens⟩ := @ensure_ok_of_findCourse st cc d t e tp c hc
  have hf := ensure_fields hens
  rw [mark_eq hens hc]
  cases hpm : processMarks st1 sid c.id cc marks now with
  | error e2 =>
    obtain ⟨m, hm⟩ := processMarks_error_systemExit hpm
    subst hm
    exact ⟨⟨m, rfl⟩, hf.2.2.2⟩
  | ok st2 =>
    exfalso
    obtain ⟨-, stu', hstu', hen'⟩ := processMarks_ok_valid hpm (r0, s0) hmem
    have hsame : findStudentByRoll st1 r0 = findStudentByRoll st r0 := by
      unfold findStudentByRoll; rw [hf.1]
    rw [hsame, hstu] at hstu'
    cases hstu'
    rw [hf.2.2.1, hnen] at hen'
    cases hen'

/-- C7.  add_student with a roll that already exists raises
sqlite3.IntegrityError from the UNIQUE constraint before inserting anything,
the dunder-main handler turns that into exit code 2, and the stored student
count is unchanged. -/
theorem add_student_duplicate_roll_conflict {st : Store} {roll name : String}
    {email : Option String} (h : ∃ s ∈ st.students, s.roll = roll) :
    add_student st roll name email =
      (st, .error (.integrityError "UNIQUE constraint failed: students.roll")) ∧
    exitCodeOf (.integrityError "UNIQUE constraint failed: students.roll") = 2 ∧
    (add_student st roll name email).1.students.length = st.students.length := by
  have hany : st.students.any (fun s => s.roll = roll) = true := by
    rw [List.any_eq_true]
    obtain ⟨s, hs, hr⟩ := h
    exact ⟨s, hs, by simp [hr]⟩
  unfold add_student
  rw [if_pos hany]
  exact ⟨rfl, rfl, rfl⟩

/-- C9.  When a mark_attendance call fails inside the per-pair loop, the
session row resolved or created by ensure_course_session at the start of the
call was already committed and survives the failure: the durable store of a
failed call is exactly the post-ensure store, which holds a session row with
the resolved identifier.  The call is not atomic across session creation and
attendance writes. -/
theorem mark_failure_session_persists {st st1 : Store} {cc d : String}
    {t e tp : Option String} {sid : Nat} {marks : List (String × String)}
    {now : String} {err : Err}
    (h : ensure_course_session st cc d t e tp = .ok (st1, sid))
    (hfail : (mark_attendance st cc d marks t e tp now).2 = .error err) :
    (mark_attendance st cc d marks t e tp now).1 = st1 ∧
      ∃ srow ∈ st1.sessions, srow.id = sid := by
  obtain ⟨c, hc, _, _⟩ := ensure_ok_elim h
  obtain ⟨srow, _, hid, hmem⟩ := ensure_find h hc
  rw [mark_eq h hc] at hfail ⊢
  cases hpm : processMarks st1 sid c.id cc marks now with
  | error e2 =>
    dsimp only
    exact ⟨rfl, srow, hmem, hid⟩
  | ok st2 =>
    rw [hpm] at hfail
    dsimp only at hfail
    cases hfail

/-- C10.  A successful mark_attendance call samples the wall clock once, so
every pair of the call ends up with an attendance row for the resolved
session whose marked-at timestamp is exactly that single sample. -/
theorem mark_single_timestamp {st st1 st' : Store} {cc d : String}
    {t e tp : Option String} {sid : Nat}
    {marks : List (String × String)} {now : String}
    (hens : ensure_course_session st cc d t e tp = .ok (st1, sid))
    (hok : mark_attendance st cc d marks t e tp now = (st', .ok ())) :
    ∀ p ∈ marks, ∃ stu, findStudentByRoll st p.1 = some stu ∧
      ∃ a ∈ st'.attendance,
        a.sessionId = sid ∧ a.studentId = stu.id ∧ a.markedAt = now := by
  obtain ⟨c, hc, -, -⟩ := ensure_ok_elim hens
  rw [mark_eq hens hc] at hok
  have hf := ensure_fields hens
  cases hpm : processMarks st1 sid c.id cc marks now with
  | error e2 =>
    rw [hpm] at hok
    dsimp only at hok
    cases hok
  | ok st2 =>
    rw [hpm] at hok
    dsimp only at hok
    injection hok with hst _
    subst hst
    intro p hp
    obtain ⟨stu, hstu1, ha⟩ := processMarks_marks_now hpm p hp
    refine ⟨stu, ?_, ha⟩
    rw [← hstu1]
    unfold findStudentByRoll
    rw [hf.1]

/-- C3 amended.  Export followed by import into a fresh empty store
reproduces each table as the same row set (same surrogate ids, same field
values) — except that every optional column that was absent (email, teacher,
start-time, end-time, topic) is restored as an empty string instead of
absent, because a CSV file cannot represent NULL.  The hypotheses are the
primary keys of the five tables, which every store written by the program
satisfies. -/
theorem csv_roundtrip_perm_normalized (st : Store)
    (h1 : (st.students.map Student.id).Nodup)
    (h2 : (st.courses.map Course.id).Nodup)
    (h3 : (st.sessions.map Session.id).Nodup)
    (h4 : (st.enrollments.map (fun e => (e.studentId, e.courseId))).Nodup)
    (h5 : (st.attendance.map (fun a => (a.sessionId, a.studentId))).Nodup) :
    (csvRoundTrip st).students.Perm (st.students.map csvNormStudent) ∧
    (csvRoundTrip st).courses.Perm (st.courses.map csvNormCourse) ∧
    (csvRoundTrip st).enrollments.Perm st.enrollments ∧
    (csvRoundTrip st).sessions.Perm (st.sessions.map csvNormSession) ∧
    (csvRoundTrip st).attendance.Perm st.attendance := by
  refine ⟨?_, ?_, ?_, ?_, ?_⟩
  · rw [roundTrip_students st h1]
    exact (List.perm_insertionSort studentLe st.students).map csvNormStudent
  · rw [roundTrip_courses st h2]
    exact (List.perm_insertionSort courseLe st.courses).map csvNormCourse
  · rw [roundTrip_enrollments st h4]
    exact List.perm_insertionSort enrollmentLe st.enrollments
  · rw [roundTrip_sessions st h3]
    exact (List.perm_insertionSort sessionLe st.sessions).map csvNormSession
  · rw [roundTrip_attendance st h5]
    exact List.perm_insertionSort attendanceLe st.attendance

set_option maxRecDepth 10000 in
/-- C5 counterexample.  The claim says every reported percentage equals
round((present_count + late_count) / total_sessions * 100, 2) — exact
rational arithmetic inside the round.  With 23 attended of 160 sessions the
exact value is 14.375, whose two-decimal half-even rounding is 14.38; the
program computes the percentage in binary64, where attended /
total_sessions is 14.374999999999998 / 100, and reports 14.37. -/
theorem report_percentage_float_divergence :
    fetch_course_stats storeManySessions "C1" =
      .ok (160, 1, [("S1", "Alice", 23, 0, 0, (1437 : ℚ) / 100)]) ∧
    round2 (((23 : ℕ) : ℚ) / ((160 : ℕ) : ℚ) * 100) = (1438 : ℚ) / 100 := by
  constructor
  · have hfc : findCourse storeManySessions "C1" =
        some ⟨1, "C1", "T1", none⟩ := by decide
    have hcounts : courseStatsCounts storeManySessions
        ⟨1, "S1", "Alice", none⟩ = (23, 0, 0) := by decide
    have hsort : List.insertionSort studentLe (storeManySessions.students.filter
        (fun s => storeManySessions.enrollments.any
          (fun e => e.studentId = s.id ∧ e.courseId = (1 : Nat)))) =
        [⟨1, "S1", "Alice", none⟩] := by decide
    have htot : (storeManySessions.sessions.filter
        (fun s => s.courseId = (1 : Nat))).length = 160 := by decide
    have hfl1 : floatDivNat 23 160 =
        Rat.divInt 2589569785738035 18014398509481984 := by decide
    have hfl2 : floatMul100 (Rat.divInt 2589569785738035 18014398509481984) =
        Rat.divInt 8092405580431359 562949953421312 := by decide
    have hr : round2 (Rat.divInt 8092405580431359 562949953421312) =
        (1437 : ℚ) / 100 := by
      norm_num [round2, pyRoundHalfEven, Rat.floor, Rat.divInt_eq_div]
    unfold fetch_course_stats
    rw [hfc]
    dsimp only
    rw [htot, hsort]
    dsimp only [List.map]
    rw [hcounts]
    norm_num [hfl1, hfl2, hr]
  · norm_num [round2, pyRoundHalfEven, Rat.floor]

/-- C5 amended.  Every reported percentage — Course Report and Student
Report — equals the two-decimal half-even rounding of the double-precision
evaluation of (present + late) / total_sessions * 100, in which the
division and the multiplication are each rounded to IEEE binary64, when
the course's session count is positive, and is exactly 0.00 when the
course has zero sessions (no division by zero).  This agrees with exact
round((present + late) / total_sessions * 100, 2) except where the
binary64 roundings move the value across a two-decimal boundary, as at 23
attended of 160 sessions. -/
theorem report_percentage_formula (st : Store) (cc roll : String) :
    (∀ total n rows, fetch_course_stats st cc = .ok (total, n, rows) →
      ∀ r nm p a l pct, (r, nm, p, a, l, pct) ∈ rows →
        pct = if 0 < total then
            round2 (floatMul100 (floatDivNat (p + l) total))
          else 0) ∧
    (∀ lines, report_student st roll = .ok lines →
      ∀ cde p a l pct, (cde, p, a, l, pct) ∈ lines →
        ∃ c ∈ st.courses, c.code = cde ∧
          pct = if 0 < (st.sessions.filter (fun s => s.courseId = c.id)).length
            then round2 (floatMul100 (floatDivNat (p + l)
              (st.sessions.filter (fun s => s.courseId = c.id)).length))
            else 0) := by
  constructor
  · intro total n rows hok r nm p a l pct hmem
    unfold fetch_course_stats at hok
    cases hc : findCourse st cc with
    | none => rw [hc] at hok; cases hok
    | some c =>
      rw [hc] at hok
      dsimp only at hok
      injection hok with htriple
      injection htriple with h1 h23
      injection h23 with h2 h3
      subst h1
      subst h3
      rw [List.mem_map] at hmem
      obtain ⟨stu, hstu, heq⟩ := hmem
      simp only [Prod.mk.injEq] at heq
      obtain ⟨e1, e2, e3, e4, e5, e6⟩ := heq
      subst e3
      subst e5
      rw [← e6]
      by_cases h0 : 0 < (st.sessions.filter (fun s => s.courseId = c.id)).length
      · rw [if_pos h0, if_pos h0]
      · rw [if_neg h0, if_neg h0, round2_zero]
  · intro lines hok cde p a l pct hmem
    unfold report_student at hok
    cases hstu : findStudentByRoll st roll with
    | none => rw [hstu] at hok; cases hok
    | some stu =>
      rw [hstu] at hok
      dsimp only at hok
      injection hok with hlines
      subst hlines
      rw [List.mem_map] at hmem
      obtain ⟨c, hcmem, heq⟩ := hmem
      have hcmem' : c ∈ st.courses := by
        have hp := List.perm_insertionSort courseLe (st.courses.filter (fun c =>
          st.enrollments.any (fun e => e.studentId = stu.id ∧ e.courseId = c.id)))
        have hmem2 := hp.mem_iff.mp hcmem
        exact List.mem_of_mem_filter hmem2
      unfold studentReportLine at heq
      simp only [Prod.mk.injEq] at heq
      obtain ⟨e1, e2, e3, e4, e5⟩ := heq
      subst e2
      subst e4
      refine ⟨c, hcmem', e1, ?_⟩
      rw [← e5]
      by_cases h0 : 0 < (st.sessions.filter (fun s => s.courseId = c.id)).length
      · rw [if_pos h0, if_pos h0]
      · rw [if_neg h0, if_neg h0, round2_zero]

/-- C8.  Enrolling fails with the not-found SystemExit and changes nothing
when the roll or the course code does not resolve; when both resolve,
enrolling succeeds, enrolling the same pair again succeeds without changing
the store, and exactly one enrollment row for the pair remains (the
hypothesis on the starting count is the enrollments primary key). -/
theorem enroll_notfound_and_idempotent (st : Store) (roll code : String) :
    ((findStudentByRoll st roll = none ∨ findCourse st code = none) →
      ∃ m, enroll_student st roll code = (st, .error (.systemExit m))) ∧
    (∀ stu c, findStudentByRoll st roll = some stu → findCourse st code = some c →
      (st.enrollments.filter
        (fun en => en.studentId = stu.id ∧ en.courseId = c.id)).length ≤ 1 →
      (enroll_student st roll code).2 = .ok () ∧
      enroll_student (enroll_student st roll code).1 roll code =
        ((enroll_student st roll code).1, .ok ()) ∧
      ((enroll_student st roll code).1.enrollments.filter
        (fun en => en.studentId = stu.id ∧ en.courseId = c.id)).length = 1) := by
  constructor
  · rintro (hs | hc2)
    · unfold enroll_student
      rw [hs]
      exact ⟨_, rfl⟩
    · unfold enroll_student
      cases hs : findStudentByRoll st roll with
      | none => exact ⟨_, rfl⟩
      | some stu =>
        dsimp only
        rw [hc2]
        exact ⟨_, rfl⟩
  · intro stu c hs hc2 hle
    by_cases hany : st.enrollments.any
        (fun en => en.studentId = stu.id ∧ en.courseId = c.id) = true
    · rw [enroll_eq_of_found hs hc2, if_pos hany]
      refine ⟨rfl, ?_, ?_⟩
      · rw [enroll_eq_of_found hs hc2, if_pos hany]
      · refine Nat.le_antisymm hle ?_
        rw [List.any_eq_true] at hany
        obtain ⟨x, hx, hpx⟩ := hany
        have hmem : x ∈ st.enrollments.filter
            (fun en => en.studentId = stu.id ∧ en.courseId = c.id) :=
          List.mem_filter.mpr ⟨hx, hpx⟩
        exact List.length_pos.mpr (List.ne_nil_of_mem hmem)
    · rw [enroll_eq_of_found hs hc2, if_neg hany]
      dsimp only
      have hs' : findStudentByRoll
          { st with enrollments := st.enrollments ++ [⟨stu.id, c.id⟩] } roll =
          some stu := hs
      have hc2' : findCourse
          { st with enrollments := st.enrollments ++ [⟨stu.id, c.id⟩] } code =
          some c := hc2
      have hany' : ({ st with enrollments :=
          st.enrollments ++ [⟨stu.id, c.id⟩] } : Store).enrollments.any
          (fun en => en.studentId = stu.id ∧ en.courseId = c.id) = true := by
        dsimp only
        rw [List.any_append]
        simp
      refine ⟨rfl, ?_, ?_⟩
      · rw [enroll_eq_of_found hs' hc2', if_pos hany']
      · dsimp only
        rw [List.filter_append]
        have hnil : st.enrollments.filter
            (fun en => en.studentId = stu.id ∧ en.courseId = c.id) = [] := by
          rw [List.filter_eq_nil_iff]
          intro a ha hpa
          exact hany (List.any_eq_true.mpr ⟨a, ha, hpa⟩)
        rw [hnil]
        simp

/-! ### Witnesses: each theorem with hypotheses applied at a concrete run -/

/-- Witness for C3 amended: round-tripping the marked store. -/
theorem csv_roundtrip_perm_normalized_witness :
    (csvRoundTrip storeMarked).students.Perm
      (storeMarked.students.map csvNormStudent) ∧
    (csvRoundTrip storeMarked).courses.Perm
      (storeMarked.courses.map csvNormCourse) ∧
    (csvRoundTrip storeMarked).enrollments.Perm storeMarked.enrollments ∧
    (csvRoundTrip storeMarked).sessions.Perm
      (storeMarked.sessions.map csvNormSession) ∧
    (csvRoundTrip storeMarked).attendance.Perm storeMarked.attendance :=
  csv_roundtrip_perm_normalized storeMarked (by decide) (by decide) (by decide)
    (by decide) (by decide)

/-- Witness for C4: P then L for the same student, session 09:00. -/
theorem mark_twice_last_write_wins_witness :
    attFor ((mark_attendance (mark_attendance storeOneEnrolled "C1" "2024-01-10"
      [("S1", "P")] (some "09:00") none none "t1").1 "C1" "2024-01-10"
      [("S1", "L")] (some "09:00") none none "t2").1).attendance 1 1 =
      [⟨1, 1, "L", "t2"⟩] :=
  @mark_twice_last_write_wins storeOneEnrolled
    { storeOneEnrolled with
        sessions := [⟨1, 1, "2024-01-10", some "09:00", none, none⟩],
        attendance := [⟨1, 1, "P", "t1"⟩] }
    { storeOneEnrolled with
        sessions := [⟨1, 1, "2024-01-10", some "09:00", none, none⟩],
        attendance := [⟨1, 1, "L", "t2"⟩] }
    { storeOneEnrolled with
        sessions := [⟨1, 1, "2024-01-10", some "09:00", none, none⟩] }
    "C1" "2024-01-10" (some "09:00") none none 1 ⟨1, "C1", "T1", none⟩
    ⟨1, "S1", "Alice", none⟩ "S1" "P" "L" "t1" "t2"
    (by decide) (by decide) (by decide) (by decide) (by decide) (by decide)

/-- Witness for C5 amended: one session, one present student, 100.00
percent (1 / 1 and * 100 are exact in binary64 here). -/
theorem report_percentage_formula_witness :
    ((100 : ℚ) = if 0 < (1 : ℕ) then
        round2 (floatMul100 (floatDivNat ((1 : ℕ) + (0 : ℕ)) 1))
      else 0) ∧
    (∃ c ∈ storeMarked.courses, c.code = "C1" ∧
      (100 : ℚ) = if 0 < (storeMarked.sessions.filter
          (fun s => s.courseId = c.id)).length then
        round2 (floatMul100 (floatDivNat ((1 : ℕ) + (0 : ℕ))
          (storeMarked.sessions.filter (fun s => s.courseId = c.id)).length))
      else 0) :=
  ⟨(report_percentage_formula storeMarked "C1" "S1").1 1 1
     [("S1", "Alice", 1, 0, 0, 100)]
     (by
       have hfc : findCourse storeMarked "C1" = some ⟨1, "C1", "T1", none⟩ := by
         decide
       have hcounts : courseStatsCounts storeMarked ⟨1, "S1", "Alice", none⟩ =
           (1, 0, 0) := by decide
       have hsort : List.insertionSort studentLe (storeMarked.students.filter
           (fun s => storeMarked.enrollments.any
             (fun e => e.studentId = s.id ∧ e.courseId = (1 : Nat)))) =
           [⟨1, "S1", "Alice", none⟩] := by decide
       have htot : (storeMarked.sessions.filter
           (fun s => s.courseId = (1 : Nat))).length = 1 := by decide
       have hfa : floatDivNat 1 1 = 1 := by decide
       have hfb : floatMul100 1 = 100 := by decide
       have h100 : round2 100 = 100 := by
         norm_num [round2, pyRoundHalfEven, Rat.floor]
       unfold fetch_course_stats
       rw [hfc]
       dsimp only
       rw [htot, hsort]
       dsimp only [List.map]
       rw [hcounts]
       norm_num [hfa, hfb, h100])
     "S1" "Alice" 1 0 0 100 (by simp),
   (report_percentage_formula storeMarked "C1" "S1").2
     [("C1", 1, 0, 0, 100)]
     (by
       have hstu : findStudentByRoll storeMarked "S1" =
           some ⟨1, "S1", "Alice", none⟩ := by decide
       have hsort : List.insertionSort courseLe (storeMarked.courses.filter
           (fun c => storeMarked.enrollments.any
             (fun e => e.studentId = (1 : Nat) ∧ e.courseId = c.id))) =
           [⟨1, "C1", "T1", none⟩] := by decide
       have hfa : floatDivNat 1 1 = 1 := by decide
       have hfb : floatMul100 1 = 100 := by decide
       have h100 : round2 100 = 100 := by
         norm_num [round2, pyRoundHalfEven, Rat.floor]
       unfold report_student
       rw [hstu]
       dsimp only
       rw [hsort]
       dsimp only [List.map]
       unfold studentReportLine
       have hsess : storeMarked.sessions.filter
           (fun s => s.courseId = (1 : Nat)) =
           [⟨1, 1, "2024-01-10", some "09:00", none, none⟩] := by decide
       rw [hsess]
       dsimp only
       have hatts : storeMarked.attendance.filter (fun a =>
           a.studentId = (1 : Nat) ∧
             ([(⟨1, 1, "2024-01-10", some "09:00", none, none⟩ : Session)] :
               List Session).any (fun s => s.id = a.sessionId)) =
           [⟨1, 1, "P", "ts"⟩] := by decide
       rw [hatts]
       have hPf : (List.filter (fun a => decide (a.status = "P"))
           [(⟨1, 1, "P", "ts"⟩ : AttendanceRow)]).length = 1 := by decide
       have hAf : (List.filter (fun a => decide (a.status = "A"))
           [(⟨1, 1, "P", "ts"⟩ : AttendanceRow)]).length = 0 := by decide
       have hLf : (List.filter (fun a => decide (a.status = "L"))
           [(⟨1, 1, "P", "ts"⟩ : AttendanceRow)]).length = 0 := by decide
       norm_num [hPf, hAf, hLf, hfa, hfb, h100])
     "C1" 1 0 0 100 (by simp)⟩

/-- Witness for C6: marking the existing but unenrolled student S2 fails and
commits no attendance write. -/
theorem mark_unenrolled_fails_no_attendance_witness :
    (∃ m, (mark_attendance storeOneUnenrolled "C1" "2024-01-10" [("S2", "P")]
      none none none "t1").2 = .error (.systemExit m)) ∧
    (mark_attendance storeOneUnenrolled "C1" "2024-01-10" [("S2", "P")]
      none none none "t1").1.attendance = storeOneUnenrolled.attendance :=
  @mark_unenrolled_fails_no_attendance storeOneUnenrolled "C1" "2024-01-10"
    none none none [("S2", "P")] "t1" ⟨1, "C1", "T1", none⟩ "S2" "P"
    ⟨2, "S2", "Bob", none⟩ (by decide) (by decide) (by decide) (by decide)

/-- Witness for C7: adding roll S1 a second time. -/
theorem add_student_duplicate_roll_conflict_witness :
    add_student storeOneEnrolled "S1" "Someone" none =
      (storeOneEnrolled,
       .error (.integrityError "UNIQUE constraint failed: students.roll")) ∧
    exitCodeOf (.integrityError "UNIQUE constraint failed: students.roll") = 2 ∧
    (add_student storeOneEnrolled "S1" "Someone" none).1.students.length =
      storeOneEnrolled.students.length :=
  @add_student_duplicate_roll_conflict storeOneEnrolled "S1" "Someone" none
    (by decide)

/-- Witness for C8: unknown roll S3 fails; enrolling S2 twice is idempotent. -/
theorem enroll_notfound_and_idempotent_witness :
    (∃ m, enroll_student storeOneUnenrolled "S3" "C1" =
      (storeOneUnenrolled, .error (.systemExit m))) ∧
    ((enroll_student storeOneUnenrolled "S2" "C1").2 = .ok () ∧
     enroll_student (enroll_student storeOneUnenrolled "S2" "C1").1 "S2" "C1" =
       ((enroll_student storeOneUnenrolled "S2" "C1").1, .ok ()) ∧
     ((enroll_student storeOneUnenrolled "S2" "C1").1.enrollments.filter
       (fun en => en.studentId = (2 : Nat) ∧
         en.courseId = (1 : Nat))).length = 1) :=
  ⟨(enroll_notfound_and_idempotent storeOneUnenrolled "S3" "C1").1
     (Or.inl (by decide)),
   (enroll_notfound_and_idempotent storeOneUnenrolled "S2" "C1").2
     ⟨2, "S2", "Bob", none⟩ ⟨1, "C1", "T1", none⟩ (by decide) (by decide)
     (by decide)⟩

/-- Witness for C9: the failed call leaves the newly created session row
committed. -/
theorem mark_failure_session_persists_witness :
    (mark_attendance storeOneUnenrolled "C1" "2024-01-10" [("S2", "P")]
      none none none "t1").1 =
      { storeOneUnenrolled with
          sessions := [⟨1, 1, "2024-01-10", none, none, none⟩] } ∧
    ∃ srow ∈ ({ storeOneUnenrolled with
        sessions := [⟨1, 1, "2024-01-10", none, none, none⟩] } : Store).sessions,
      srow.id = 1 :=
  @mark_failure_session_persists storeOneUnenrolled
    { storeOneUnenrolled with
        sessions := [⟨1, 1, "2024-01-10", none, none, none⟩] }
    "C1" "2024-01-10" none none none 1 [("S2", "P")] "t1"
    (.systemExit "Student S2 not enrolled in C1")
    (by decide) (by decide)

/-- Witness for C10: the single pair of a successful call carries the single
wall-clock sample t1. -/
theorem mark_single_timestamp_witness :
    ∃ stu, findStudentByRoll storeOneEnrolled "S1" = some stu ∧
      ∃ a ∈ ({ storeOneEnrolled with
          sessions := [⟨1, 1, "2024-01-10", some "09:00", none, none⟩],
          attendance := [⟨1, 1, "P", "t1"⟩] } : Store).attendance,
        a.sessionId = 1 ∧ a.studentId = stu.id ∧ a.markedAt = "t1" :=
  @mark_single_timestamp storeOneEnrolled
    { storeOneEnrolled with
        sessions := [⟨1, 1, "2024-01-10", some "09:00", none, none⟩] }
    { storeOneEnrolled with
        sessions := [⟨1, 1, "2024-01-10", some "09:00", none, none⟩],
        attendance := [⟨1, 1, "P", "t1"⟩] }
    "C1" "2024-01-10" (some "09:00") none none 1 [("S1", "P")] "t1"
    (by decide) (by decide) ("S1", "P") (by decide)

end Attendance
